import Mathlib

/-!
Verification of the client core of the weather MCP system.

The development shallowly embeds the Python sources:
  * `client/orchestrator.py`  — the tool-calling orchestration loop,
  * `client/mcp.py`           — tool invocation and result normalization,
  * `client/llm.py`           — the failure mapping of the Ollama backend client
                                and the MCP→Ollama tool format conversion,
  * `weather_mcp/tools/weather.py` — the error path of the weather tool handler,
  * `client/main.py`          — the per-query error handling of the REPL.

External collaborators (the Ollama HTTP endpoint, the MCP session, the
weather service) are modelled as oracles passed in as functions, and the
Python `json` module is modelled by an executable JSON grammar below.
-/

namespace WeatherMcp

/-- JSON values as produced by `json.loads`.  Numbers keep their source
lexeme, which is enough for every payload this system exchanges. -/
inductive Json where
  | null : Json
  | bool : Bool → Json
  | num : String → Json
  | str : String → Json
  | arr : List Json → Json
  | obj : List (String × Json) → Json

/-- Whitespace skipped by the JSON grammar (space, tab, newline, return). -/
def skipWs : List Char → List Char
  | [] => []
  | c :: cs => if c = ' ' ∨ c = '\t' ∨ c = '\n' ∨ c = '\r' then skipWs cs else c :: cs

/-- Value of one hex digit, if the character is one. -/
def hexVal (c : Char) : Option Nat :=
  if '0' ≤ c ∧ c ≤ '9' then some (c.toNat - '0'.toNat)
  else if 'a' ≤ c ∧ c ≤ 'f' then some (c.toNat - 'a'.toNat + 10)
  else if 'A' ≤ c ∧ c ≤ 'F' then some (c.toNat - 'A'.toNat + 10)
  else none

/-- Four hex digits of a `\uXXXX` escape. -/
def parseHex4 : List Char → Option (Nat × List Char)
  | a :: b :: c :: d :: rest => do
    let va ← hexVal a
    let vb ← hexVal b
    let vc ← hexVal c
    let vd ← hexVal d
    pure (((va * 16 + vb) * 16 + vc) * 16 + vd, rest)
  | _ => none

/-- Body of a JSON string after the opening quote: collects characters up to
the closing quote, decoding escapes, rejecting raw control characters.  As in
the Python decoder, a `\uXXXX` high surrogate immediately followed by a
`\uXXXX` low surrogate combines into one astral character; otherwise the
escaped code unit stands alone. -/
def parseStrBody : Nat → List Char → Option (List Char × List Char)
  | 0, _ => none
  | _ + 1, [] => none
  | fuel + 1, c :: cs =>
    if c = '"' then some ([], cs)
    else if c = '\\' then
      match cs with
      | [] => none
      | e :: cs2 =>
        let cont := fun (ch : Char) (rest : List Char) =>
          match parseStrBody fuel rest with
          | some (body, rem) => some (ch :: body, rem)
          | none => none
        if e = '"' then cont '"' cs2
        else if e = '\\' then cont '\\' cs2
        else if e = '/' then cont '/' cs2
        else if e = 'b' then cont '\x08' cs2
        else if e = 'f' then cont '\x0c' cs2
        else if e = 'n' then cont '\n' cs2
        else if e = 'r' then cont '\r' cs2
        else if e = 't' then cont '\t' cs2
        else if e = 'u' then
          match parseHex4 cs2 with
          | some (n, cs3) =>
            if 55296 ≤ n ∧ n ≤ 56319 then
              match cs3 with
              | '\\' :: 'u' :: cs4 =>
                match parseHex4 cs4 with
                | some (m, cs5) =>
                  if 56320 ≤ m ∧ m ≤ 57343 then
                    cont (Char.ofNat (65536 + (n - 55296) * 1024 + (m - 56320))) cs5
                  else cont (Char.ofNat n) cs3
                | none => cont (Char.ofNat n) cs3
              | _ => cont (Char.ofNat n) cs3
            else cont (Char.ofNat n) cs3
          | none => none
        else none
    else if c.toNat < 32 then none
    else
      match parseStrBody fuel cs with
      | some (body, rem) => some (c :: body, rem)
      | none => none

/-- Longest digit run at the head of the input. -/
def spanDigits : List Char → List Char × List Char
  | [] => ([], [])
  | c :: cs =>
    if c.isDigit then
      let (ds, rest) := spanDigits cs
      (c :: ds, rest)
    else ([], c :: cs)

/-- Integer part of a JSON number: `0`, or a nonzero digit followed by digits. -/
def lexIntPart : List Char → Option (List Char × List Char)
  | [] => none
  | c :: cs =>
    if c = '0' then some (['0'], cs)
    else if c.isDigit then
      let (ds, rest) := spanDigits cs
      some (c :: ds, rest)
    else none

/-- Optional exponent part appended to an already-lexed number. -/
def lexExp (acc : List Char) : List Char → Option (List Char × List Char)
  | [] => some (acc, [])
  | c :: cs1 =>
    if c = 'e' ∨ c = 'E' then
      let (sgn, cs2) :=
        match cs1 with
        | s :: t => if s = '+' ∨ s = '-' then ([s], t) else (([] : List Char), s :: t)
        | [] => ([], [])
      let (ds, cs3) := spanDigits cs2
      if ds = [] then none else some (acc ++ c :: sgn ++ ds, cs3)
    else some (acc, c :: cs1)

/-- Lexes one JSON number (sign, integer part, fraction, exponent). -/
def lexNumber (cs : List Char) : Option (List Char × List Char) :=
  let (neg, cs1) :=
    match cs with
    | c :: t => if c = '-' then (['-'], t) else (([] : List Char), c :: t)
    | [] => ([], [])
  match lexIntPart cs1 with
  | none => none
  | some (ip, cs2) =>
    match cs2 with
    | '.' :: cs3 =>
      let (fd, cs4) := spanDigits cs3
      if fd = [] then none else lexExp (neg ++ ip ++ '.' :: fd) cs4
    | _ => lexExp (neg ++ ip) cs2

mutual

/-- One JSON value, fuelled; mirrors the grammar accepted by `json.loads`. -/
def parseVal : Nat → List Char → Option (Json × List Char)
  | 0, _ => none
  | fuel + 1, cs =>
    match skipWs cs with
    | [] => none
    | c :: cs1 =>
      if c = 'n' then
        match cs1 with
        | 'u' :: 'l' :: 'l' :: rest => some (.null, rest)
        | _ => none
      else if c = 't' then
        match cs1 with
        | 'r' :: 'u' :: 'e' :: rest => some (.bool true, rest)
        | _ => none
      else if c = 'f' then
        match cs1 with
        | 'a' :: 'l' :: 's' :: 'e' :: rest => some (.bool false, rest)
        | _ => none
      else if c = '"' then
        match parseStrBody (cs1.length + 1) cs1 with
        | some (body, rest) => some (.str (String.mk body), rest)
        | none => none
      else if c = '[' then
        match skipWs cs1 with
        | ']' :: rest => some (.arr [], rest)
        | _ =>
          match parseElems fuel cs1 with
          | some (vs, rest) => some (.arr vs, rest)
          | none => none
      else if c = '\x7b' then
        match skipWs cs1 with
        | '\x7d' :: rest => some (.obj [], rest)
        | _ =>
          match parseMembers fuel cs1 with
          | some (ms, rest) => some (.obj ms, rest)
          | none => none
      else if c = '-' ∨ c.isDigit then
        match lexNumber (c :: cs1) with
        | some (lex, rest) => some (.num (String.mk lex), rest)
        | none => none
      else none

/-- Comma-separated array elements up to the closing bracket. -/
def parseElems : Nat → List Char → Option (List Json × List Char)
  | 0, _ => none
  | fuel + 1, cs =>
    match parseVal fuel cs with
    | none => none
    | some (v, rest) =>
      match skipWs rest with
      | ',' :: rest2 =>
        match parseElems fuel rest2 with
        | some (vs, rest3) => some (v :: vs, rest3)
        | none => none
      | ']' :: rest2 => some ([v], rest2)
      | _ => none

/-- Comma-separated object members up to the closing brace. -/
def parseMembers : Nat → List Char → Option (List (String × Json) × List Char)
  | 0, _ => none
  | fuel + 1, cs =>
    match skipWs cs with
    | '"' :: cs1 =>
      match parseStrBody (cs1.length + 1) cs1 with
      | some (key, cs2) =>
        match skipWs cs2 with
        | ':' :: cs3 =>
          match parseVal fuel cs3 with
          | some (v, cs4) =>
            match skipWs cs4 with
            | ',' :: cs5 =>
              match parseMembers fuel cs5 with
              | some (ms, cs6) => some ((String.mk key, v) :: ms, cs6)
              | none => none
            | '\x7d' :: cs5 => some ([(String.mk key, v)], cs5)
            | _ => none
          | none => none
        | _ => none
      | none => none
    | _ => none

end

/-- Model of `json.loads`: parse one value and require only trailing
whitespace after it; `none` models a raised `JSONDecodeError`. -/
def json_loads (s : String) : Option Json :=
  match parseVal (s.length + 1) s.data with
  | some (v, rest) => if skipWs rest = [] then some v else none
  | none => none

/-- Hex digit character for a value below 16 (lower case, as Python emits). -/
def hexDigit (n : Nat) : Char :=
  if n < 10 then Char.ofNat ('0'.toNat + n) else Char.ofNat ('a'.toNat + (n - 10))

/-- Four-hex-digit escape `\uXXXX` for a code unit. -/
def uEscape (n : Nat) : List Char :=
  ['\\', 'u', hexDigit (n / 4096 % 16), hexDigit (n / 256 % 16),
   hexDigit (n / 16 % 16), hexDigit (n % 16)]

/-- Escape of one character inside a `json.dumps` string (default
`ensure_ascii=True`): the short escapes, `\uXXXX` for other control or
non-ASCII characters (surrogate pairs above the BMP), identity otherwise. -/
def jsonEscapeChar (c : Char) : List Char :=
  if c = '"' then ['\\', '"']
  else if c = '\\' then ['\\', '\\']
  else if c = '\n' then ['\\', 'n']
  else if c = '\r' then ['\\', 'r']
  else if c = '\t' then ['\\', 't']
  else if c = '\x08' then ['\\', 'b']
  else if c = '\x0c' then ['\\', 'f']
  else if c.toNat < 32 ∨ c.toNat > 126 then
    if c.toNat < 65536 then uEscape c.toNat
    else
      let n := c.toNat - 65536
      uEscape (55296 + n / 1024) ++ uEscape (56320 + n % 1024)
  else [c]

/-- Serialization of a string literal by `json.dumps`. -/
def dumpStr (s : String) : String :=
  "\"" ++ String.mk (s.data.flatMap jsonEscapeChar) ++ "\""

/-- Comma-space joining, as the Python default item separator produces. -/
def joinComma : List String → String
  | [] => ""
  | [x] => x
  | x :: y :: xs => x ++ ", " ++ joinComma (y :: xs)

mutual

/-- Model of `json.dumps` with its default separators `(", ", ": ")`. -/
def json_dumps : Json → String
  | .null => "null"
  | .bool true => "true"
  | .bool false => "false"
  | .num lex => lex
  | .str s => dumpStr s
  | .arr vs => "[" ++ joinComma (dumpsList vs) ++ "]"
  | .obj ms => "\x7b" ++ joinComma (dumpsMembers ms) ++ "\x7d"

/-- Serialized elements of a JSON array. -/
def dumpsList : List Json → List String
  | [] => []
  | v :: vs => json_dumps v :: dumpsList vs

/-- Serialized `key: value` members of a JSON object. -/
def dumpsMembers : List (String × Json) → List String
  | [] => []
  | (k, v) :: ms => (dumpStr k ++ ": " ++ json_dumps v) :: dumpsMembers ms

end

/-- Python runtime values reachable in this client: `None`, booleans,
numbers, strings, lists and string-keyed dicts (what `json.loads` yields). -/
inductive PyVal where
  | none : PyVal
  | bool : Bool → PyVal
  | num : String → PyVal
  | str : String → PyVal
  | list : List PyVal → PyVal
  | dict : List (String × PyVal) → PyVal

mutual

/-- The Python value a parsed `Json` tree denotes: `json.loads` maps JSON
`null` to `None`, objects to dicts, arrays to lists. -/
def pyOfJson : Json → PyVal
  | .null => .none
  | .bool b => .bool b
  | .num lex => .num lex
  | .str s => .str s
  | .arr vs => .list (pyOfJsonList vs)
  | .obj ms => .dict (pyOfJsonMembers ms)

/-- Elementwise `pyOfJson` on array elements. -/
def pyOfJsonList : List Json → List PyVal
  | [] => []
  | v :: vs => pyOfJson v :: pyOfJsonList vs

/-- Elementwise `pyOfJson` on object members. -/
def pyOfJsonMembers : List (String × Json) → List (String × PyVal)
  | [] => []
  | (k, v) :: ms => (k, pyOfJson v) :: pyOfJsonMembers ms

end

mutual

/-- Model of `json.dumps` applied to a Python value (as the orchestrator
does on dict tool results). -/
def py_json_dumps : PyVal → String
  | .none => "null"
  | .bool true => "true"
  | .bool false => "false"
  | .num lex => lex
  | .str s => dumpStr s
  | .list vs => "[" ++ joinComma (pyDumpsList vs) ++ "]"
  | .dict ms => "\x7b" ++ joinComma (pyDumpsMembers ms) ++ "\x7d"

/-- Serialized elements of a Python list. -/
def pyDumpsList : List PyVal → List String
  | [] => []
  | v :: vs => py_json_dumps v :: pyDumpsList vs

/-- Serialized `key: value` members of a Python dict. -/
def pyDumpsMembers : List (String × PyVal) → List String
  | [] => []
  | (k, v) :: ms => (dumpStr k ++ ": " ++ py_json_dumps v) :: pyDumpsMembers ms

end

/-- Escape of one character inside a Python string repr quoted by `q`. -/
def pyEscChar (q c : Char) : List Char :=
  if c = '\\' then ['\\', '\\']
  else if c = q then ['\\', q]
  else if c = '\n' then ['\\', 'n']
  else if c = '\r' then ['\\', 'r']
  else if c = '\t' then ['\\', 't']
  else if c.toNat < 32 ∨ c.toNat = 127 then
    ['\\', 'x', hexDigit (c.toNat / 16 % 16), hexDigit (c.toNat % 16)]
  else [c]

/-- Model of Python `repr` on a string: single quotes, unless the string
contains a single quote and no double quote. -/
def pyReprStr (s : String) : String :=
  let q : Char := if s.data.contains '\x27' ∧ ¬ s.data.contains '"' then '"' else '\x27'
  String.mk (q :: s.data.flatMap (pyEscChar q) ++ [q])

mutual

/-- Model of Python `repr` on the values above. -/
def py_repr : PyVal → String
  | .none => "None"
  | .bool true => "True"
  | .bool false => "False"
  | .num lex => lex
  | .str s => pyReprStr s
  | .list vs => "[" ++ joinComma (pyReprList vs) ++ "]"
  | .dict ms => "\x7b" ++ joinComma (pyReprMembers ms) ++ "\x7d"

/-- Reprs of the elements of a Python list. -/
def pyReprList : List PyVal → List String
  | [] => []
  | v :: vs => py_repr v :: pyReprList vs

/-- Reprs of `key: value` members of a Python dict. -/
def pyReprMembers : List (String × PyVal) → List String
  | [] => []
  | (k, v) :: ms => (pyReprStr k ++ ": " ++ py_repr v) :: pyReprMembers ms

end

/-- Model of Python `str`: identity on strings, repr-like elsewhere. -/
def py_str : PyVal → String
  | .str s => s
  | v => py_repr v

/-! Embedding of `client/mcp.py` (`MCPClient.call_tool`). -/

/-- One item of the content list of an MCP tool result: a `TextContent` carrying
text, or an item without a `text` attribute carrying its `str` form. -/
inductive ContentItem where
  | text : String → ContentItem
  | noText : String → ContentItem

/-- Result normalization of `MCPClient.call_tool`: empty content yields
`None`; otherwise only the first item is looked at — its text is parsed as
JSON when possible and returned raw otherwise, and an item without text is
stringified. -/
def extractToolResult : List ContentItem → PyVal
  | [] => PyVal.none
  | item :: _ =>
    match item with
    | .text t =>
      match json_loads t with
      | some v => pyOfJson v
      | Option.none => PyVal.str t
    | .noText r => PyVal.str r

/-- Model of `MCPClient.call_tool`: the provider session either returns a
content list or raises; a session failure is re-raised as a `RuntimeError`
whose message names the tool. -/
def call_tool (toolName : String) (provider : Except String (List ContentItem)) :
    Except String PyVal :=
  match provider with
  | .ok content => .ok (extractToolResult content)
  | .error e => .error ("Tool \x27" ++ toolName ++ "\x27 execution failed: " ++ e)

/-! Embedding of `weather_mcp/tools/weather.py` (`handle_get_current_weather`). -/

/-- The text of `str(error_response)` built by the weather handler: Python
`str` of the dict with keys `error`, `city`, `country` in that order. -/
def errorResponseText (e city : String) (country : Option String) : String :=
  py_str (PyVal.dict
    [("error", PyVal.str e), ("city", PyVal.str city),
     ("country", match country with | some c => PyVal.str c | Option.none => PyVal.none)])

/-- Model of `handle_get_current_weather`: the weather service either
yields a payload (its `model_dump_json` text) or raises; a raise becomes a
successful `TextContent` reply carrying `str` of an error dict. -/
def handle_get_current_weather (svc : Except String String) (city : String)
    (country : Option String) : List ContentItem :=
  match svc with
  | .ok payload => [.text payload]
  | .error e => [.text (errorResponseText e city country)]

/-! Embedding of `client/llm.py`. -/

/-- The exceptions `OllamaClient.chat` can see from the HTTP layer, plus
the catch-all for anything else. -/
inductive HttpxError where
  | connectError : String → HttpxError
  | timeoutException : String → HttpxError
  | httpStatusError : Nat → String → HttpxError
  | otherException : String → HttpxError

/-- Message of the `RuntimeError` that `OllamaClient.chat` raises for each
failure kind, as a function of the configured base URL and model. -/
def ollama_chat_error (baseUrl model : String) : HttpxError → String
  | .connectError _ =>
    "Cannot connect to Ollama at " ++ baseUrl ++
      ".\nPlease ensure Ollama is running:\n  ollama serve"
  | .timeoutException _ =>
    "Ollama request timed out. The model might be too large or the system is busy."
  | .httpStatusError status body =>
    if status = 404 then
      "Model \x27" ++ model ++ "\x27 not found in Ollama.\nPlease pull the model first:\n  ollama pull " ++ model
    else
      "Ollama API error: " ++ body
  | .otherException d => "Unexpected error communicating with Ollama: " ++ d

/-- An MCP tool descriptor as a dict that may lack keys; subscripting a
missing key raises `KeyError`. -/
structure MCPToolDict where
  name : Option String
  description : Option String
  inputSchema : Option Json

/-- The `function` part of an Ollama tool definition. -/
structure OllamaFunction where
  name : String
  description : String
  parameters : Json

/-- One tool in Ollama function-calling format. -/
structure OllamaTool where
  type : String
  function : OllamaFunction

/-- Model of `convert_mcp_tools_to_ollama_format`: one output per input in
order, reading `name`, `description`, `inputSchema`; a missing key is the
`KeyError` the subscript raises. -/
def convert_mcp_tools_to_ollama_format : List MCPToolDict → Except String (List OllamaTool)
  | [] => .ok []
  | t :: ts =>
    match t.name with
    | Option.none => .error "KeyError: name"
    | some n =>
      match t.description with
      | Option.none => .error "KeyError: description"
      | some d =>
        match t.inputSchema with
        | Option.none => .error "KeyError: inputSchema"
        | some sch =>
          match convert_mcp_tools_to_ollama_format ts with
          | .error e => .error e
          | .ok rest => .ok (⟨"function", ⟨n, d, sch⟩⟩ :: rest)

/-! Embedding of `client/orchestrator.py` (`WeatherOrchestrator.process_query`)
and the per-query handler of `client/main.py`. -/

/-- Role of a conversation turn. -/
inductive Role where
  | user : Role
  | assistant : Role
  | tool : Role
deriving DecidableEq

/-- One tool call requested by the model: the name of the `function` member and its
JSON argument mapping. -/
structure ToolCall where
  name : String
  arguments : List (String × Json)

/-- One entry of `conversation_history`; `tool_calls` is present exactly on
assistant turns that request tool execution. -/
structure Turn where
  role : Role
  content : String
  tool_calls : Option (List ToolCall)

/-- Outcome of one `llm.chat` invocation: a message (content plus requested
tool calls), or a raised exception. -/
inductive LLMResult where
  | ok : String → List ToolCall → LLMResult
  | exn : String → LLMResult

/-- Result of one `process_query` run: the conversation history afterwards,
the returned text or raised message, and how many backend inference calls
were made. -/
structure QueryResult where
  hist : List Turn
  outcome : Except String String
  inferences : Nat

/-- The hard iteration cap of the orchestration loop. -/
def maxIterations : Nat := 5

/-- The fixed apology returned when the cap is reached. -/
def exhaustedMsg : String :=
  "I apologize, but I couldn\x27t complete your request after multiple attempts."

/-- Message of the `RuntimeError` raised when the backend call fails. -/
def llmFailureMsg : String :=
  "Could not connect to Ollama. Please ensure it\x27s running:\n  ollama serve"

/-- The user turn appended when a query arrives. -/
def mkUserTurn (u : String) : Turn := ⟨.user, u, Option.none⟩

/-- The assistant turn appended for a final (no tool calls) response. -/
def mkAssistantTurn (content : String) : Turn := ⟨.assistant, content, Option.none⟩

/-- The assistant turn appended when the response requests tool calls. -/
def mkAssistantCallsTurn (content : String) (calls : List ToolCall) : Turn :=
  ⟨.assistant, content, some calls⟩

/-- Content of the tool turn for one executed call: a dict result is
`json.dumps`-ed, any other success is stringified, and a caught exception
becomes `json.dumps` of an error dict. -/
def toolTurnContent : Except String PyVal → String
  | .ok r =>
    match r with
    | .dict ms => py_json_dumps (.dict ms)
    | other => py_str other
  | .error e => json_dumps (.obj [("error", .str e)])

/-- The tool turn appended for one requested call, given the tool-call
oracle `ct` (the MCP session, which may raise). -/
def mkToolTurn (ct : ToolCall → Except String PyVal) (c : ToolCall) : Turn :=
  ⟨.tool, toolTurnContent (ct c), Option.none⟩

/-- The iterative loop body of `process_query`: `fuel` is the number of
remaining iterations, `i` the index of the next inference call, `hist` the
conversation history so far. -/
def orchLoop (llm : Nat → LLMResult) (ct : ToolCall → Except String PyVal) :
    Nat → Nat → List Turn → QueryResult
  | 0, _, hist => ⟨hist, .ok exhaustedMsg, 0⟩
  | fuel + 1, i, hist =>
    match llm i with
    | .exn _ => ⟨hist, .error llmFailureMsg, 1⟩
    | .ok content calls =>
      match calls with
      | [] => ⟨hist ++ [mkAssistantTurn content], .ok content, 1⟩
      | _ :: _ =>
        let hist2 := (hist ++ [mkAssistantCallsTurn content calls]) ++ calls.map (mkToolTurn ct)
        let r := orchLoop llm ct fuel (i + 1) hist2
        ⟨r.hist, r.outcome, r.inferences + 1⟩

/-- Model of `WeatherOrchestrator.process_query`: append the user turn,
then run at most `maxIterations` inference passes. -/
def process_query (llm : Nat → LLMResult) (ct : ToolCall → Except String PyVal)
    (hist : List Turn) (userInput : String) : QueryResult :=
  orchLoop llm ct maxIterations 0 (hist ++ [mkUserTurn userInput])

/-- Model of one pass of the REPL in `client/main.py`: a raised query error
is caught and printed; the session (and its history) survives. -/
def mainHandleQuery (llm : Nat → LLMResult) (ct : ToolCall → Except String PyVal)
    (hist : List Turn) (input : String) : List Turn × String :=
  let r := process_query llm ct hist input
  match r.outcome with
  | .ok ans => (r.hist, "\nAssistant: " ++ ans ++ "\n")
  | .error e => (r.hist, "\nError: " ++ e ++ "\n")

/-! Helper lemmas about strings and the JSON model. -/


/-- Characters that both `json.dumps` escapes trivially and the string
parser consumes verbatim: printable ASCII other than quote and backslash. -/
def JsonPlain (c : Char) : Prop :=
  c ≠ '"' ∧ c ≠ '\\' ∧ 32 ≤ c.toNat ∧ c.toNat ≤ 126

lemma String.mk_data (s : String) : String.mk s.data = s := rfl

lemma String.length_data (s : String) : s.length = s.data.length := rfl

lemma parseStrBody_plain : ∀ (cs : List Char), (∀ c ∈ cs, JsonPlain c) →
    ∀ (rest : List Char) (fuel : Nat), cs.length < fuel →
    parseStrBody fuel (cs ++ '"' :: rest) = some (cs, rest) := by
  intro cs
  induction cs with
  | nil =>
    intro _ rest fuel hf
    match fuel, hf with
    | f + 1, _ => simp [parseStrBody]
  | cons c cs ih =>
    intro hp rest fuel hf
    match fuel, hf with
    | f + 1, hf =>
      obtain ⟨h1, h2, h3, _⟩ := hp c (by simp)
      have hge : ¬ c.toNat < 32 := by omega
      simp only [List.cons_append, parseStrBody, if_neg h1, if_neg h2, hge, if_false,
        List.append_eq]
      rw [ih (fun x hx => hp x (by simp [hx])) rest f (by simpa using hf)]

instance JsonPlain.decidable (c : Char) : Decidable (JsonPlain c) := by
  unfold JsonPlain; infer_instance

lemma hexVal_hexDigit : ∀ k < 16, hexVal (hexDigit k) = some k := by decide

lemma parseHex4_uEscape (n : Nat) (h : n < 65536) (t : List Char) :
    parseHex4 (hexDigit (n / 4096 % 16) :: hexDigit (n / 256 % 16) ::
      hexDigit (n / 16 % 16) :: hexDigit (n % 16) :: t) = some (n, t) := by
  have h3 := hexVal_hexDigit (n / 4096 % 16) (by omega)
  have h2 := hexVal_hexDigit (n / 256 % 16) (by omega)
  have h1 := hexVal_hexDigit (n / 16 % 16) (by omega)
  have h0 := hexVal_hexDigit (n % 16) (by omega)
  simp [parseHex4, h3, h2, h1, h0]
  omega

lemma char_valid_toNat (c : Char) :
    c.toNat < 55296 ∨ (57343 < c.toNat ∧ c.toNat < 1114112) := c.valid

lemma psb_esc_quote (f : Nat) (X : List Char) :
    parseStrBody (f + 1) ('\\' :: '"' :: X) =
      match parseStrBody f X with
      | some (body, rem) => some ('"' :: body, rem)
      | none => none := by
  simp [parseStrBody]

lemma psb_esc_backslash (f : Nat) (X : List Char) :
    parseStrBody (f + 1) ('\\' :: '\\' :: X) =
      match parseStrBody f X with
      | some (body, rem) => some ('\\' :: body, rem)
      | none => none := by
  simp [parseStrBody]

lemma psb_esc_n (f : Nat) (X : List Char) :
    parseStrBody (f + 1) ('\\' :: 'n' :: X) =
      match parseStrBody f X with
      | some (body, rem) => some ('\n' :: body, rem)
      | none => none := by
  simp [parseStrBody]

lemma psb_esc_r (f : Nat) (X : List Char) :
    parseStrBody (f + 1) ('\\' :: 'r' :: X) =
      match parseStrBody f X with
      | some (body, rem) => some ('\x0d' :: body, rem)
      | none => none := by
  simp [parseStrBody]

lemma psb_esc_t (f : Nat) (X : List Char) :
    parseStrBody (f + 1) ('\\' :: 't' :: X) =
      match parseStrBody f X with
      | some (body, rem) => some ('\t' :: body, rem)
      | none => none := by
  simp [parseStrBody]

lemma psb_esc_b (f : Nat) (X : List Char) :
    parseStrBody (f + 1) ('\\' :: 'b' :: X) =
      match parseStrBody f X with
      | some (body, rem) => some ('\x08' :: body, rem)
      | none => none := by
  simp [parseStrBody]

lemma psb_esc_f (f : Nat) (X : List Char) :
    parseStrBody (f + 1) ('\\' :: 'f' :: X) =
      match parseStrBody f X with
      | some (body, rem) => some ('\x0c' :: body, rem)
      | none => none := by
  simp [parseStrBody]

lemma psb_plain (f : Nat) (c : Char) (X : List Char)
    (hq : c ≠ '"') (hb : c ≠ '\\') (hc : ¬ c.toNat < 32) :
    parseStrBody (f + 1) (c :: X) =
      match parseStrBody f X with
      | some (body, rem) => some (c :: body, rem)
      | none => none := by
  simp [parseStrBody, hq, hb, hc]

lemma psb_u (f n : Nat) (X : List Char) (hn : n < 65536)
    (hns : ¬ (55296 ≤ n ∧ n ≤ 56319)) :
    parseStrBody (f + 1) ('\\' :: 'u' :: hexDigit (n / 4096 % 16) :: hexDigit (n / 256 % 16) ::
        hexDigit (n / 16 % 16) :: hexDigit (n % 16) :: X) =
      match parseStrBody f X with
      | some (body, rem) => some (Char.ofNat n :: body, rem)
      | none => none := by
  simp [parseStrBody]
  rw [parseHex4_uEscape n hn X]
  simp [hns]

lemma psb_u_pair (f n m : Nat) (X : List Char) (hn : n < 65536) (hm : m < 65536)
    (hns : 55296 ≤ n ∧ n ≤ 56319) (hms : 56320 ≤ m ∧ m ≤ 57343) :
    parseStrBody (f + 1) ('\\' :: 'u' :: hexDigit (n / 4096 % 16) :: hexDigit (n / 256 % 16) ::
        hexDigit (n / 16 % 16) :: hexDigit (n % 16) ::
        '\\' :: 'u' :: hexDigit (m / 4096 % 16) :: hexDigit (m / 256 % 16) ::
        hexDigit (m / 16 % 16) :: hexDigit (m % 16) :: X) =
      match parseStrBody f X with
      | some (body, rem) => some (Char.ofNat (65536 + (n - 55296) * 1024 + (m - 56320)) :: body, rem)
      | none => none := by
  simp [parseStrBody]
  rw [parseHex4_uEscape n hn]
  simp only [hns.1, hns.2, and_self, if_true, if_pos]
  rw [parseHex4_uEscape m hm X]
  simp [hms.1, hms.2]

lemma parseStrBody_one (c : Char) (f : Nat) (X : List Char) :
    parseStrBody (f + 1) (jsonEscapeChar c ++ X) =
      match parseStrBody f X with
      | some (body, rem) => some (c :: body, rem)
      | none => none := by
  have hvalid := char_valid_toNat c
  unfold jsonEscapeChar
  split_ifs with h1 h2 h3 h4 h5 h6 h7 h8 h9
  · subst h1; exact psb_esc_quote f X
  · subst h2; exact psb_esc_backslash f X
  · subst h3; exact psb_esc_n f X
  · subst h4; exact psb_esc_r f X
  · subst h5; exact psb_esc_t f X
  · subst h6; exact psb_esc_b f X
  · subst h7; exact psb_esc_f f X
  · have hns : ¬ (55296 ≤ c.toNat ∧ c.toNat ≤ 56319) := by omega
    have h := psb_u f c.toNat X h9 hns
    simp only [Char.ofNat_toNat] at h
    exact h
  · have hlt : c.toNat < 1114112 := by omega
    have hge : 65536 ≤ c.toNat := by omega
    have hhi : 55296 + (c.toNat - 65536) / 1024 < 65536 := by omega
    have hlo : 56320 + (c.toNat - 65536) % 1024 < 65536 := by omega
    have h := psb_u_pair f (55296 + (c.toNat - 65536) / 1024) (56320 + (c.toNat - 65536) % 1024)
      X hhi hlo (by omega) (by omega)
    have hcomb : 65536 + (55296 + (c.toNat - 65536) / 1024 - 55296) * 1024 +
        (56320 + (c.toNat - 65536) % 1024 - 56320) = c.toNat := by omega
    simp only [hcomb, Char.ofNat_toNat] at h
    exact h
  · exact psb_plain f c X h1 h2 (by omega)

lemma jsonEscapeChar_length_pos (c : Char) : 1 ≤ (jsonEscapeChar c).length := by
  unfold jsonEscapeChar uEscape
  split_ifs <;> simp

lemma length_le_flatMap_escape : ∀ (cs : List Char),
    cs.length ≤ (cs.flatMap jsonEscapeChar).length := by
  intro cs
  induction cs with
  | nil => simp
  | cons c cs ih =>
    simp only [List.flatMap_cons, List.length_append, List.length_cons]
    have := jsonEscapeChar_length_pos c
    omega

lemma parseStrBody_escapes : ∀ (cs rest : List Char) (fuel : Nat), cs.length < fuel →
    parseStrBody fuel (cs.flatMap jsonEscapeChar ++ '"' :: rest) = some (cs, rest) := by
  intro cs
  induction cs with
  | nil =>
    intro rest fuel hf
    match fuel, hf with
    | f + 1, _ => simp [parseStrBody]
  | cons c cs ih =>
    intro rest fuel hf
    match fuel, hf with
    | f + 1, hf =>
      rw [List.flatMap_cons, List.append_assoc, parseStrBody_one,
        ih rest f (by simpa using hf)]

lemma parseVal_str_escaped (f : Nat) (cs rest : List Char) :
    parseVal (f + 1) (' ' :: '"' :: (cs.flatMap jsonEscapeChar ++ '"' :: rest))
      = some (.str (String.mk cs), rest) := by
  have hlen := length_le_flatMap_escape cs
  have hb := parseStrBody_escapes cs rest
    ((cs.flatMap jsonEscapeChar).length + (rest.length + 1) + 1) (by omega)
  simp only [List.length_flatMap] at hb
  simp [parseVal, skipWs, hb]

lemma json_dumps_error_obj_data (e : String) :
    (json_dumps (.obj [("error", .str e)])).data
      = '\x7b' :: '"' :: 'e' :: 'r' :: 'r' :: 'o' :: 'r' :: '"' :: ':' :: ' ' :: '"' ::
        (e.data.flatMap jsonEscapeChar ++ ['"', '\x7d']) := by
  simp [json_dumps, dumpsMembers, joinComma, dumpStr, String.data_append, jsonEscapeChar]

lemma parseMembers_single (f : Nat) (t cs3 cs4 : List Char) (key : List Char) (v : Json)
    (hkey : parseStrBody (t.length + 1) t = some (key, ':' :: cs3))
    (hv : parseVal f cs3 = some (v, cs4))
    (hend : skipWs cs4 = ['\x7d']) :
    parseMembers (f + 1) ('"' :: t) = some ([(String.mk key, v)], []) := by
  simp [parseMembers, skipWs, hkey, hv, hend]

lemma parseVal_obj_one (f : Nat) (t : List Char) (ms : List (String × Json))
    (hm : parseMembers f ('"' :: t) = some (ms, [])) :
    parseVal (f + 1) ('\x7b' :: '"' :: t) = some (.obj ms, []) := by
  simp [parseVal, skipWs, hm]

lemma json_loads_error_obj (e : String) :
    json_loads (json_dumps (.obj [("error", .str e)])) = some (.obj [("error", .str e)]) := by
  have hdata := json_dumps_error_obj_data e
  have hlen : (json_dumps (.obj [("error", .str e)])).length
      = (e.data.flatMap jsonEscapeChar).length + 13 := by
    rw [String.length_data, hdata]; simp
  have hval : parseVal ((e.data.flatMap jsonEscapeChar).length + 12)
      (' ' :: '"' :: (e.data.flatMap jsonEscapeChar ++ ['"', '\x7d']))
      = some (.str e, ['\x7d']) := by
    have := parseVal_str_escaped ((e.data.flatMap jsonEscapeChar).length + 11) e.data ['\x7d']
    rw [String.mk_data] at this
    exact this
  have hkey : parseStrBody
      (('e' :: 'r' :: 'r' :: 'o' :: 'r' :: '"' :: ':' :: ' ' :: '"' ::
        (e.data.flatMap jsonEscapeChar ++ ['"', '\x7d'])).length + 1)
      ('e' :: 'r' :: 'r' :: 'o' :: 'r' :: '"' :: ':' :: ' ' :: '"' ::
        (e.data.flatMap jsonEscapeChar ++ ['"', '\x7d']))
      = some (['e', 'r', 'r', 'o', 'r'], ':' :: ' ' :: '"' ::
        (e.data.flatMap jsonEscapeChar ++ ['"', '\x7d'])) :=
    parseStrBody_plain ['e', 'r', 'r', 'o', 'r'] (by decide) _ _ (by simp)
  have hm : parseMembers ((e.data.flatMap jsonEscapeChar).length + 13)
      ('"' :: 'e' :: 'r' :: 'r' :: 'o' :: 'r' :: '"' :: ':' :: ' ' :: '"' ::
        (e.data.flatMap jsonEscapeChar ++ ['"', '\x7d']))
      = some ([("error", .str e)], []) := by
    have := parseMembers_single ((e.data.flatMap jsonEscapeChar).length + 12)
      ('e' :: 'r' :: 'r' :: 'o' :: 'r' :: '"' :: ':' :: ' ' :: '"' ::
        (e.data.flatMap jsonEscapeChar ++ ['"', '\x7d']))
      (' ' :: '"' :: (e.data.flatMap jsonEscapeChar ++ ['"', '\x7d'])) ['\x7d']
      ['e', 'r', 'r', 'o', 'r'] (.str e)
      hkey hval rfl
    simpa using this
  have htop : parseVal ((json_dumps (.obj [("error", .str e)])).length + 1)
      (json_dumps (.obj [("error", .str e)])).data = some (.obj [("error", .str e)], []) := by
    rw [hlen, hdata]
    exact parseVal_obj_one ((e.data.flatMap jsonEscapeChar).length + 13) _ _ hm
  unfold json_loads
  rw [htop]
  simp [skipWs]

/-! Helper lemmas about the orchestration loop. -/

section LoopLemmas

variable (llm : Nat → LLMResult) (ct : ToolCall → Except String PyVal)

lemma orchLoop_hist_extends : ∀ (fuel i : Nat) (hist : List Turn),
    ∃ t, (orchLoop llm ct fuel i hist).hist = hist ++ t := by
  intro fuel
  induction fuel with
  | zero => intro i hist; exact ⟨[], by simp [orchLoop]⟩
  | succ f ih =>
    intro i hist
    unfold orchLoop
    match hllm : llm i with
    | .exn m => exact ⟨[], by simp⟩
    | .ok content calls =>
      match calls with
      | [] => exact ⟨[mkAssistantTurn content], by simp⟩
      | c :: cs =>
        obtain ⟨t, ht⟩ := ih (i + 1)
          ((hist ++ [mkAssistantCallsTurn content (c :: cs)]) ++ (c :: cs).map (mkToolTurn ct))
        refine ⟨[mkAssistantCallsTurn content (c :: cs)] ++ (c :: cs).map (mkToolTurn ct) ++ t, ?_⟩
        simp only [ht]
        simp

lemma orchLoop_inferences_le : ∀ (fuel i : Nat) (hist : List Turn),
    (orchLoop llm ct fuel i hist).inferences ≤ fuel := by
  intro fuel
  induction fuel with
  | zero => intro i hist; simp [orchLoop]
  | succ f ih =>
    intro i hist
    unfold orchLoop
    match llm i with
    | .exn m => simp
    | .ok content calls =>
      match calls with
      | [] => simp
      | c :: cs =>
        simpa using Nat.succ_le_succ (ih (i + 1) _)

lemma orchLoop_no_exn (h : ∀ i m, llm i ≠ .exn m) : ∀ (fuel i : Nat) (hist : List Turn),
    ∃ ans, (orchLoop llm ct fuel i hist).outcome = .ok ans := by
  intro fuel
  induction fuel with
  | zero => intro i hist; exact ⟨exhaustedMsg, rfl⟩
  | succ f ih =>
    intro i hist
    unfold orchLoop
    match hllm : llm i with
    | .exn m => exact absurd hllm (h i m)
    | .ok content calls =>
      match calls with
      | [] => exact ⟨content, rfl⟩
      | c :: cs => simpa using ih (i + 1) _

lemma orchLoop_exhaust : ∀ (fuel i : Nat) (hist : List Turn),
    (∀ j, j < fuel → ∃ c cs, llm (i + j) = .ok c cs ∧ cs ≠ []) →
    (orchLoop llm ct fuel i hist).outcome = .ok exhaustedMsg ∧
      (fuel = 0 → (orchLoop llm ct fuel i hist).hist = hist) ∧
      (0 < fuel → ∃ q c cs, llm (i + (fuel - 1)) = .ok c cs ∧
        (orchLoop llm ct fuel i hist).hist = q ++ cs.map (mkToolTurn ct)) := by
  intro fuel
  induction fuel with
  | zero => intro i hist _; exact ⟨rfl, fun _ => rfl, fun h => absurd h (by simp)⟩
  | succ f ih =>
    intro i hist H
    obtain ⟨c0, cs0, hok, hne⟩ := H 0 (Nat.succ_pos f)
    rw [Nat.add_zero] at hok
    unfold orchLoop
    rw [hok]
    match cs0, hne with
    | c :: cs, _ =>
      have H2 : ∀ j, j < f → ∃ a as, llm (i + 1 + j) = .ok a as ∧ as ≠ [] := by
        intro j hj
        have := H (j + 1) (by omega)
        simpa [Nat.add_assoc, Nat.add_comm 1 j] using this
      obtain ⟨iho, _, ihh⟩ := ih (i + 1) _ H2
      refine ⟨by simpa using iho, by simp, ?_⟩
      intro _
      match f, ihh with
      | 0, _ =>
        refine ⟨hist ++ [mkAssistantCallsTurn c0 (c :: cs)], c0, c :: cs, by simpa using hok, ?_⟩
        simp [orchLoop]
      | Nat.succ g, ihh =>
        obtain ⟨q, a, as, hok2, hh⟩ := ihh (Nat.succ_pos g)
        refine ⟨q, a, as, ?_, by simpa using hh⟩
        have : i + 1 + (g + 1 - 1) = i + (g + 2 - 1) := by omega
        rwa [this] at hok2

end LoopLemmas

/-! Lemmas about invalid JSON heads and the weather error text. -/

lemma json_loads_brace_quote (s : String) (rest : List Char)
    (h : s.data = '\x7b' :: '\x27' :: rest) : json_loads s = Option.none := by
  have hlen : s.length = rest.length + 2 := by
    rw [String.length_data, h]; simp
  unfold json_loads
  rw [hlen, h]
  simp [parseVal, skipWs, parseMembers]

lemma errorResponseText_data (e city : String) (co : Option String) :
    ∃ r, (errorResponseText e city co).data = '\x7b' :: '\x27' :: r := by
  simp [errorResponseText, py_str, py_repr, pyReprMembers, joinComma, pyReprStr,
    String.data_append]

lemma ne_of_data_get (a b : String) (n : Nat)
    (h : a.data.get? n ≠ b.data.get? n) : a ≠ b := fun he => h (by rw [he])

/-! The claims. -/

/-- C1: in every dispatch round the loop proceeds with the history extended by
the assistant turn followed by exactly one tool turn per requested call, in
the order the backend listed the calls, whatever the executor `ct` does
(failures included). -/
theorem dispatch_appends_one_tool_turn_per_call
    (llm : Nat → LLMResult) (ct : ToolCall → Except String PyVal)
    (fuel i : Nat) (hist : List Turn) (content : String) (calls : List ToolCall)
    (hok : llm i = .ok content calls) (hne : calls ≠ []) :
    (orchLoop llm ct (fuel + 1) i hist).hist =
      (orchLoop llm ct fuel (i + 1)
        ((hist ++ [mkAssistantCallsTurn content calls]) ++ calls.map (mkToolTurn ct))).hist ∧
    (orchLoop llm ct (fuel + 1) i hist).outcome =
      (orchLoop llm ct fuel (i + 1)
        ((hist ++ [mkAssistantCallsTurn content calls]) ++ calls.map (mkToolTurn ct))).outcome ∧
    (calls.map (mkToolTurn ct)).length = calls.length ∧
    (∀ j, (calls.map (mkToolTurn ct)).get? j = (calls.get? j).map (mkToolTurn ct)) := by
  match calls, hne with
  | c :: cs, _ =>
    refine ⟨?_, ?_, by simp, fun j => by cases j <;> simp [List.getElem?_map]⟩ <;>
      simp only [orchLoop, hok]

/-- C1 witness: a two-call batch, the first call failing, still yields both
tool turns in order. -/
theorem dispatch_appends_one_tool_turn_per_call_witness :
    ((⟨"get_current_weather", [("city", Json.str "London")]⟩ :: [⟨"get_current_weather", []⟩]
        : List ToolCall).map
      (mkToolTurn (fun c => match c.arguments with
        | [] => .ok (PyVal.str "sunny")
        | _ => .error "boom"))).length = 2 ∧
    ((⟨"get_current_weather", [("city", Json.str "London")]⟩ :: [⟨"get_current_weather", []⟩]
        : List ToolCall).map
      (mkToolTurn (fun c => match c.arguments with
        | [] => .ok (PyVal.str "sunny")
        | _ => .error "boom"))).get? 0 =
      some (mkToolTurn (fun c => match c.arguments with
        | [] => .ok (PyVal.str "sunny")
        | _ => .error "boom") ⟨"get_current_weather", [("city", Json.str "London")]⟩) := by
  have h := dispatch_appends_one_tool_turn_per_call
    (fun _ => .ok "" (⟨"get_current_weather", [("city", Json.str "London")]⟩ ::
      [⟨"get_current_weather", []⟩]))
    (fun c => match c.arguments with
      | [] => .ok (PyVal.str "sunny")
      | _ => .error "boom")
    0 0 [] "" (⟨"get_current_weather", [("city", Json.str "London")]⟩ ::
      [⟨"get_current_weather", []⟩]) rfl (by simp)
  exact ⟨h.2.2.1, h.2.2.2 0⟩

/-- C2: a query performs at most `maxIterations` inference passes; with zero
fuel the loop returns the fixed apology and appends nothing; and when every
pass up to the cap requests tools, the query ends with the apology and its
history ends with the tool turns of the last batch, with no turn after them. -/
theorem iteration_cap_and_exhaustion
    (llm : Nat → LLMResult) (ct : ToolCall → Except String PyVal)
    (hist : List Turn) (u : String) :
    (process_query llm ct hist u).inferences ≤ maxIterations ∧
    (∀ i h2, orchLoop llm ct 0 i h2 = ⟨h2, .ok exhaustedMsg, 0⟩) ∧
    ((∀ i, i < maxIterations → ∃ c cs, llm i = .ok c cs ∧ cs ≠ []) →
      (process_query llm ct hist u).outcome = .ok exhaustedMsg ∧
      ∃ q c cs, llm (maxIterations - 1) = .ok c cs ∧
        (process_query llm ct hist u).hist = q ++ cs.map (mkToolTurn ct)) := by
  refine ⟨orchLoop_inferences_le llm ct maxIterations 0 _, fun i h2 => rfl, ?_⟩
  intro hbusy
  have H : ∀ j, j < maxIterations → ∃ c cs, llm (0 + j) = .ok c cs ∧ cs ≠ [] := by
    intro j hj
    simpa using hbusy j hj
  obtain ⟨ho, _, hh⟩ := orchLoop_exhaust llm ct maxIterations 0 (hist ++ [mkUserTurn u]) H
  refine ⟨ho, ?_⟩
  obtain ⟨q, c, cs, hok, hhist⟩ := hh (by decide)
  exact ⟨q, c, cs, by simpa using hok, hhist⟩

/-- C2 witness: a backend that requests the same one-call batch forever is
stopped after the cap with the apology message. -/
theorem iteration_cap_and_exhaustion_witness :
    (process_query (fun _ => .ok "" [⟨"get_current_weather", []⟩])
        (fun _ => .error "down") [] "weather?").inferences ≤ maxIterations ∧
    (process_query (fun _ => .ok "" [⟨"get_current_weather", []⟩])
        (fun _ => .error "down") [] "weather?").outcome = .ok exhaustedMsg := by
  have h := iteration_cap_and_exhaustion (fun _ => .ok "" [⟨"get_current_weather", []⟩])
    (fun _ => .error "down") [] "weather?"
  exact ⟨h.1, (h.2.2 (fun i _ => ⟨"", [⟨"get_current_weather", []⟩], rfl, by simp⟩)).1⟩

/-- C3: a failing tool call is caught and becomes a tool turn whose content is
the JSON serialization of an error object, deserializing back to
`\x7berror: message\x7d` for every message whatsoever; `call_tool` turns a
session failure into the raised message the loop catches; and no tool failure
ever makes the query outcome a raise (only a backend failure can). -/
theorem tool_failure_becomes_error_turn
    (llm : Nat → LLMResult) (ct : ToolCall → Except String PyVal)
    (c : ToolCall) (e : String)
    (hfail : ct c = .error e) :
    mkToolTurn ct c = ⟨.tool, json_dumps (.obj [("error", .str e)]), Option.none⟩ ∧
    json_loads ((mkToolTurn ct c).content) = some (.obj [("error", .str e)]) ∧
    (∀ nm pe, call_tool nm (.error pe) =
      .error ("Tool \x27" ++ nm ++ "\x27 execution failed: " ++ pe)) ∧
    (∀ hist u, (∀ i m, llm i ≠ .exn m) →
      ∃ ans, (process_query llm ct hist u).outcome = .ok ans) := by
  have h1 : mkToolTurn ct c = ⟨.tool, json_dumps (.obj [("error", .str e)]), Option.none⟩ := by
    simp [mkToolTurn, toolTurnContent, hfail]
  refine ⟨h1, ?_, fun nm pe => rfl, ?_⟩
  · rw [h1]
    exact json_loads_error_obj e
  · intro hist u hnoexn
    exact orchLoop_no_exn llm ct hnoexn maxIterations 0 _

/-- C3 witness: a concrete failing call whose message holds a quote, a
backslash, a newline and an astral character still produces the error tool
turn, and its content parses back to the error object. -/
theorem tool_failure_becomes_error_turn_witness :
    mkToolTurn (fun _ => .error "fai\\led: \"no\"\n😀") ⟨"get_current_weather", []⟩ =
      ⟨.tool, json_dumps (.obj [("error", .str "fai\\led: \"no\"\n😀")]), Option.none⟩ ∧
    json_loads ((mkToolTurn (fun _ => .error "fai\\led: \"no\"\n😀")
        ⟨"get_current_weather", []⟩).content) =
      some (.obj [("error", .str "fai\\led: \"no\"\n😀")]) := by
  have h := tool_failure_becomes_error_turn (fun _ => .ok "" [])
    (fun _ => .error "fai\\led: \"no\"\n😀") ⟨"get_current_weather", []⟩
    "fai\\led: \"no\"\n😀" rfl
  exact ⟨h.1, h.2.1⟩

/-- C4 counterexample: the "no content" marker is Python `None`, which is the
very value JSON `null` parses to, so a tool that returns the text `null` is
indistinguishable from a tool that returned no content. -/
theorem no_content_marker_equals_null :
    extractToolResult [] = pyOfJson Json.null ∧
    extractToolResult [ContentItem.text "null"] = extractToolResult [] := ⟨rfl, rfl⟩

/-- C4 (amended): valid JSON text is parsed, other text is returned raw, no
content yields `None` — distinguishable from the empty string, though not
from JSON null. -/
theorem result_normalization (t : String) :
    (∀ v, json_loads t = some v → extractToolResult [.text t] = pyOfJson v) ∧
    (json_loads t = Option.none → extractToolResult [.text t] = PyVal.str t) ∧
    extractToolResult [] = PyVal.none ∧
    PyVal.none ≠ PyVal.str "" ∧
    extractToolResult [ContentItem.text "\x7b\"a\":1\x7d"] = PyVal.dict [("a", PyVal.num "1")] ∧
    extractToolResult [ContentItem.text "hello"] = PyVal.str "hello" := by
  refine ⟨?_, ?_, rfl, fun h => PyVal.noConfusion h, rfl, rfl⟩
  · intro v hv
    simp [extractToolResult, hv]
  · intro hv
    simp [extractToolResult, hv]

/-- C4 witness: the parsed and raw branches at concrete inputs. -/
theorem result_normalization_witness :
    extractToolResult [ContentItem.text "7"] = pyOfJson (Json.num "7") ∧
    extractToolResult [ContentItem.text ""] = PyVal.str "" := by
  exact ⟨(result_normalization "7").1 (Json.num "7") rfl,
    (result_normalization "").2.1 rfl⟩

/-- C5: the conversation history is append-only: the loop and the whole query
only ever extend the incoming history on the right, in every outcome. -/
theorem history_append_only
    (llm : Nat → LLMResult) (ct : ToolCall → Except String PyVal)
    (fuel i : Nat) (hist : List Turn) (u : String) :
    (∃ t, (orchLoop llm ct fuel i hist).hist = hist ++ t) ∧
    (∃ t, (process_query llm ct hist u).hist = (hist ++ [mkUserTurn u]) ++ t) ∧
    (∃ t, (process_query llm ct hist u).hist = hist ++ t) := by
  refine ⟨orchLoop_hist_extends llm ct fuel i hist, ?_, ?_⟩
  · exact orchLoop_hist_extends llm ct maxIterations 0 _
  · obtain ⟨t, ht⟩ := orchLoop_hist_extends llm ct maxIterations 0 (hist ++ [mkUserTurn u])
    exact ⟨[mkUserTurn u] ++ t, by simpa [process_query] using ht⟩

/-- C6: a backend failure raises out of the query with the fixed message,
leaves every turn appended before the failure in place (including the user
turn), appends no assistant turn for the failed call, and the REPL catches it
so the session survives with the history intact. -/
theorem llm_failure_aborts_query_only
    (llm : Nat → LLMResult) (ct : ToolCall → Except String PyVal)
    (hist : List Turn) (u m : String)
    (hfail : llm 0 = .exn m) :
    process_query llm ct hist u = ⟨hist ++ [mkUserTurn u], .error llmFailureMsg, 1⟩ ∧
    mainHandleQuery llm ct hist u =
      (hist ++ [mkUserTurn u], "\nError: " ++ llmFailureMsg ++ "\n") ∧
    (∀ i fuel m2 h2, llm i = .exn m2 →
      orchLoop llm ct (fuel + 1) i h2 = ⟨h2, .error llmFailureMsg, 1⟩) := by
  have hloop : ∀ i fuel m2 h2, llm i = .exn m2 →
      orchLoop llm ct (fuel + 1) i h2 = ⟨h2, .error llmFailureMsg, 1⟩ := by
    intro i fuel m2 h2 hexn
    unfold orchLoop
    rw [hexn]
  have h1 : process_query llm ct hist u = ⟨hist ++ [mkUserTurn u], .error llmFailureMsg, 1⟩ :=
    hloop 0 4 m _ hfail
  refine ⟨h1, ?_, hloop⟩
  simp [mainHandleQuery, h1]

/-- C6 witness: a backend that raises on the first pass leaves exactly the
prior history plus the user turn, and the REPL reports the error text. -/
theorem llm_failure_aborts_query_only_witness :
    process_query (fun _ => .exn "refused") (fun _ => .ok PyVal.none) [] "hi" =
      ⟨[mkUserTurn "hi"], .error llmFailureMsg, 1⟩ ∧
    mainHandleQuery (fun _ => .exn "refused") (fun _ => .ok PyVal.none) [] "hi" =
      ([mkUserTurn "hi"], "\nError: " ++ llmFailureMsg ++ "\n") := by
  have h := llm_failure_aborts_query_only (fun _ => .exn "refused")
    (fun _ => .ok PyVal.none) [] "hi" "refused" rfl
  exact ⟨by simpa using h.1, by simpa using h.2.1⟩

/-- C7: the backend client maps each HTTP-layer failure to its own message —
connection hint, timeout hint, missing-model hint naming the model, raw body
text for other status errors — and the four are pairwise distinct. -/
theorem chat_failure_taxonomy (baseUrl model d1 d2 body : String) (status : Nat)
    (hs : status ≠ 404) :
    ollama_chat_error baseUrl model (.connectError d1) =
      "Cannot connect to Ollama at " ++ baseUrl ++
        ".\nPlease ensure Ollama is running:\n  ollama serve" ∧
    ollama_chat_error baseUrl model (.timeoutException d2) =
      "Ollama request timed out. The model might be too large or the system is busy." ∧
    ollama_chat_error baseUrl model (.httpStatusError 404 body) =
      "Model \x27" ++ model ++
        "\x27 not found in Ollama.\nPlease pull the model first:\n  ollama pull " ++ model ∧
    ollama_chat_error baseUrl model (.httpStatusError status body) =
      "Ollama API error: " ++ body ∧
    ollama_chat_error baseUrl model (.connectError d1) ≠
      ollama_chat_error baseUrl model (.timeoutException d2) ∧
    ollama_chat_error baseUrl model (.connectError d1) ≠
      ollama_chat_error baseUrl model (.httpStatusError 404 body) ∧
    ollama_chat_error baseUrl model (.connectError d1) ≠
      ollama_chat_error baseUrl model (.httpStatusError status body) ∧
    ollama_chat_error baseUrl model (.timeoutException d2) ≠
      ollama_chat_error baseUrl model (.httpStatusError 404 body) ∧
    ollama_chat_error baseUrl model (.timeoutException d2) ≠
      ollama_chat_error baseUrl model (.httpStatusError status body) ∧
    ollama_chat_error baseUrl model (.httpStatusError 404 body) ≠
      ollama_chat_error baseUrl model (.httpStatusError status body) := by
  refine ⟨rfl, rfl, by simp [ollama_chat_error], by simp [ollama_chat_error, hs],
    ?_, ?_, ?_, ?_, ?_, ?_⟩
  · exact ne_of_data_get _ _ 0 (by simp [ollama_chat_error, String.data_append])
  · exact ne_of_data_get _ _ 0 (by simp [ollama_chat_error, String.data_append])
  · exact ne_of_data_get _ _ 0 (by simp [ollama_chat_error, hs, String.data_append])
  · exact ne_of_data_get _ _ 0 (by simp [ollama_chat_error, String.data_append])
  · exact ne_of_data_get _ _ 7 (by simp [ollama_chat_error, hs, String.data_append])
  · exact ne_of_data_get _ _ 0 (by simp [ollama_chat_error, hs, String.data_append])

/-- C7 witness: at the default configuration, a 500 response carries the raw
body text and differs from the connection-failure message. -/
theorem chat_failure_taxonomy_witness :
    ollama_chat_error "http://localhost:11434" "qwen2.5:7b" (.httpStatusError 500 "boom") =
      "Ollama API error: " ++ "boom" ∧
    ollama_chat_error "http://localhost:11434" "qwen2.5:7b" (.connectError "x") ≠
      ollama_chat_error "http://localhost:11434" "qwen2.5:7b" (.timeoutException "y") := by
  have h := chat_failure_taxonomy "http://localhost:11434" "qwen2.5:7b" "x" "y" "boom" 500
    (by decide)
  exact ⟨h.2.2.2.1, h.2.2.2.2.1⟩

/-- C8: the adapter emits one output per input descriptor, in input order,
carrying name, description and schema through unchanged, and its only failure
mode is a descriptor with a missing field. -/
theorem convert_preserves_order_and_fields (tools : List MCPToolDict) :
    ((∀ t ∈ tools, t.name.isSome ∧ t.description.isSome ∧ t.inputSchema.isSome) →
      convert_mcp_tools_to_ollama_format tools =
        .ok (tools.map (fun t =>
          ⟨"function", ⟨t.name.getD "", t.description.getD "", t.inputSchema.getD Json.null⟩⟩))) ∧
    (∀ e, convert_mcp_tools_to_ollama_format tools = .error e →
      ∃ t ∈ tools, t.name = Option.none ∨ t.description = Option.none ∨
        t.inputSchema = Option.none) := by
  induction tools with
  | nil =>
    refine ⟨fun _ => rfl, fun e he => ?_⟩
    simp [convert_mcp_tools_to_ollama_format] at he
  | cons t ts ih =>
    constructor
    · intro hall
      obtain ⟨hn, hd, hsch⟩ := hall t (by simp)
      rcases hname : t.name with _ | n
      · rw [hname] at hn; cases hn
      rcases hdesc : t.description with _ | d
      · rw [hdesc] at hd; cases hd
      rcases hschema : t.inputSchema with _ | sch
      · rw [hschema] at hsch; cases hsch
      have hrec := ih.1 (fun x hx => hall x (by simp [hx]))
      simp [convert_mcp_tools_to_ollama_format, hname, hdesc, hschema, hrec]
    · intro e he
      rcases hname : t.name with _ | n
      · exact ⟨t, by simp, Or.inl hname⟩
      rcases hdesc : t.description with _ | d
      · exact ⟨t, by simp, Or.inr (Or.inl hdesc)⟩
      rcases hschema : t.inputSchema with _ | sch
      · exact ⟨t, by simp, Or.inr (Or.inr hschema)⟩
      simp only [convert_mcp_tools_to_ollama_format, hname, hdesc, hschema] at he
      cases hrec : convert_mcp_tools_to_ollama_format ts with
      | error e2 =>
        obtain ⟨x, hx, hmiss⟩ := ih.2 e2 hrec
        exact ⟨x, by simp [hx], hmiss⟩
      | ok rest =>
        rw [hrec] at he
        simp at he

/-- C8 witness: two concrete descriptors convert in order with all fields
carried through. -/
theorem convert_preserves_order_and_fields_witness :
    convert_mcp_tools_to_ollama_format
      [⟨some "get_current_weather", some "Get the current weather", some (Json.obj [])⟩,
       ⟨some "b", some "B", some Json.null⟩] =
      .ok [⟨"function", ⟨"get_current_weather", "Get the current weather", Json.obj []⟩⟩,
        ⟨"function", ⟨"b", "B", Json.null⟩⟩] := by
  have h := (convert_preserves_order_and_fields
    [⟨some "get_current_weather", some "Get the current weather", some (Json.obj [])⟩,
     ⟨some "b", some "B", some Json.null⟩]).1
    (by
      intro t ht
      simp only [List.mem_cons, List.not_mem_nil, or_false] at ht
      rcases ht with rfl | rfl <;> exact ⟨rfl, rfl, rfl⟩)
  simpa using h

/-- C9: result normalization looks only at the first content item of a
successful invocation; every later item is discarded before anything reaches
the conversation history. -/
theorem only_first_content_item (item : ContentItem) (rest : List ContentItem) (nm : String) :
    extractToolResult (item :: rest) = extractToolResult [item] ∧
    call_tool nm (.ok (item :: rest)) = call_tool nm (.ok [item]) ∧
    extractToolResult [ContentItem.text "first", ContentItem.text "second"] =
      PyVal.str "first" := by
  refine ⟨?_, ?_, rfl⟩ <;> cases item <;> rfl

/-- C10: a weather-service failure is answered as a successful text reply
holding Python `str` of the error dict — a single-quoted repr that is not
valid JSON — so the client returns it as a raw string, not a parsed mapping. -/
theorem weather_error_reply_is_raw_string (e city : String) (country : Option String) :
    handle_get_current_weather (.error e) city country =
      [.text (errorResponseText e city country)] ∧
    errorResponseText "boom" "London" Option.none =
      "\x7b\x27error\x27: \x27boom\x27, \x27city\x27: \x27London\x27, \x27country\x27: None\x7d" ∧
    json_loads (errorResponseText e city country) = Option.none ∧
    extractToolResult (handle_get_current_weather (.error e) city country) =
      PyVal.str (errorResponseText e city country) := by
  obtain ⟨r, hr⟩ := errorResponseText_data e city country
  have hnone := json_loads_brace_quote _ r hr
  refine ⟨rfl, rfl, hnone, ?_⟩
  simp [handle_get_current_weather, extractToolResult, hnone]

end WeatherMcp
